import Mathlib

/-!
Verification of the Slice-Leaderboard counter store (`src/bot.py`).

The program keeps a SQL table `orders` of rows
`(guild_id, user_id, display_name, count)` with a uniqueness constraint on
`(guild_id, user_id)`, and exposes DB helpers `_add_count`, `_set_count`,
`_remove_user`, `_reset_all`, `_top_n` plus role-gated Discord command
handlers.  We embed the table as a list of records and each helper as a pure
function from store to (result, store).
-/

namespace SliceLB

/-- One row of the `orders` table (`class Order` in `bot.py`):
`guild_id`/`user_id` are opaque ids, `display_name` a cached name, `count`
the stored counter.  The SQL column `count` is a (signed) `Integer`; the
non-negativity of stored counts is an invariant to be proved, so `count`
is modelled as `Int`. -/
@[ext]
structure Order where
  guild_id : Nat
  user_id : Nat
  display_name : String
  count : Int
  deriving Repr, DecidableEq

/-- The `orders` table: a sequence of rows.  The uniqueness constraint
`uq_guild_user` is stated separately as `StoreUniq`. -/
abbrev Store := List Order

/-- The `WHERE guild_id == gid AND user_id == uid` filter used by every
row-scoped helper. -/
def keyIs (gid uid : Nat) (r : Order) : Bool :=
  r.guild_id == gid && r.user_id == uid

/-- The storage-level uniqueness constraint `UniqueConstraint("guild_id",
"user_id")`: no two rows share a `(guild_id, user_id)` pair. -/
def StoreUniq (s : Store) : Prop :=
  s.Pairwise (fun a b => a.guild_id ≠ b.guild_id ∨ a.user_id ≠ b.user_id)

/-- SQLAlchemy mutates the one row returned by `scalar_one_or_none` in
place; in the list model this is: replace the first row satisfying `p`
(there is at most one under `StoreUniq`). -/
def updateFirst (p : Order → Bool) (f : Order → Order) : Store → Store
  | [] => []
  | r :: rs => if p r then f r :: rs else r :: updateFirst p f rs

/-- The shared tail of `_add_count`/`_set_count`:
`row.count = newCount`, then
`if display_name and row.display_name != display_name:
row.display_name = display_name` (Python truthiness of a string is
non-emptiness). -/
def applyTouch (row : Order) (newCount : Int) (display_name : String) : Order :=
  let row := { row with count := newCount }
  if display_name ≠ "" ∧ row.display_name ≠ display_name then
    { row with display_name := display_name }
  else
    row

/-- Helper `_add_count(guild_id, user_id, delta, display_name) -> int`
(`bot.py` lines 71–83): find-or-create the row (a fresh row starts with
`count=0`), set `count = max(0, count + delta)`, refresh the name when the
given one is non-empty, return the new count.  Returns the new count and
the updated store. -/
def _add_count (gid uid : Nat) (delta : Int) (display_name : String) (s : Store) :
    Int × Store :=
  match s.find? (keyIs gid uid) with
  | none =>
    let row : Order := ⟨gid, uid, display_name, 0⟩
    let row := applyTouch row (max 0 (row.count + delta)) display_name
    (row.count, s ++ [row])
  | some row =>
    let row := applyTouch row (max 0 (row.count + delta)) display_name
    (row.count, updateFirst (keyIs gid uid) (fun _ => row) s)

/-- Helper `_set_count(guild_id, user_id, value, display_name) -> int`
(`bot.py` lines 86–98): find-or-create, `count = max(0, int(value))`,
refresh name, return the new count. -/
def _set_count (gid uid : Nat) (value : Int) (display_name : String) (s : Store) :
    Int × Store :=
  match s.find? (keyIs gid uid) with
  | none =>
    let row : Order := ⟨gid, uid, display_name, 0⟩
    let row := applyTouch row (max 0 value) display_name
    (row.count, s ++ [row])
  | some row =>
    let row := applyTouch row (max 0 value) display_name
    (row.count, updateFirst (keyIs gid uid) (fun _ => row) s)

/-- Helper `_remove_user(guild_id, user_id) -> bool` (`bot.py` lines 101–110):
delete the row if present, report whether one was deleted. -/
def _remove_user (gid uid : Nat) (s : Store) : Bool × Store :=
  match s.find? (keyIs gid uid) with
  | none => (false, s)
  | some _ => (true, s.eraseP (keyIs gid uid))

/-- Helper `_reset_all(guild_id) -> int` (`bot.py` lines 113–121): set `count = 0`
on every row of the guild, return how many rows were touched. -/
def _reset_all (gid : Nat) (s : Store) : Nat × Store :=
  ((s.filter (fun r => r.guild_id == gid)).length,
   s.map (fun r => if r.guild_id == gid then { r with count := 0 } else r))

/-- The `ORDER BY count DESC, user_id` ordering of `_top_n`: count
descending, ties broken by `user_id` ascending. -/
def rank (a b : Order) : Prop :=
  b.count < a.count ∨ (a.count = b.count ∧ a.user_id ≤ b.user_id)

instance : DecidableRel rank := fun a b => by
  unfold rank; infer_instance

instance : IsTotal Order rank :=
  ⟨fun a b => by unfold rank; omega⟩

instance : IsTrans Order rank :=
  ⟨fun a b c hab hbc => by unfold rank at *; omega⟩

/-- Helper `_top_n(guild_id, n=10) -> List[Order]` (`bot.py` lines 124–129): the
guild's rows ordered by `count` descending then `user_id` ascending,
limited to `n`.  (`ORDER BY count DESC, user_id` is a total order on the
rows of a guild, since `user_id` is unique within it; any sort realises
it.)  Read-only: returns only the row list. -/
def _top_n (gid : Nat) (n : Nat) (s : Store) : List Order :=
  (List.insertionSort rank (s.filter (fun r => r.guild_id == gid))).take n

/-- A Discord member as the handlers see one: id, account `name`,
server `display_name`, and the names of the roles held. -/
structure Member where
  id : Nat
  name : String
  display_name : String
  roles : List String
  deriving Repr, DecidableEq

/-- Helper `name_for(member, fallback)` (`bot.py` lines 138–141): the member's
display name when the member is known, else `fallback or "Unknown"`
(Python string truthiness = non-emptiness). -/
def name_for (member : Option Member) (fallback : String) : String :=
  match member with
  | some m => m.display_name
  | none => if fallback ≠ "" then fallback else "Unknown"

/-- Python's `str.lower()` as applied to role names: `Char.toLower` on
every character (written on the character list directly, so that concrete
instances evaluate by kernel reduction). -/
def lower (s : String) : String :=
  ⟨s.data.map Char.toLower⟩

/-- Helper `_member_has_any_roles(member, role_names)` (`bot.py` lines 145–148):
case-insensitive intersection test between the member's role names and the
wanted role names (`not current.isdisjoint(wanted)`). -/
def _member_has_any_roles (member : Member) (role_names : List String) : Bool :=
  let wanted := role_names.map lower
  let current := member.roles.map lower
  current.any (fun r => wanted.contains r)

/-- Invocation context: the community (guild) scope, when any, and the
calling member. -/
structure Ctx where
  guild : Option Nat
  author : Member
  deriving Repr

/-- Structured outcome of one command invocation (the reply each handler
sends, stripped of formatting). -/
inductive Result where
  | serverOnly
  | missingRole (roles : List String)
  | usage
  | negativeAmount
  | orderAdded (newCount : Int)
  | noData
  | board (rows : List Order)
  | removed (who : String)
  | notOnBoard
  | valueSet (who : String) (newCount : Int)
  | resetDone (n : Nat)
  deriving Repr, DecidableEq

/-- Command `!add` (`bot.py` lines 172–182): gated by the `Chef` role
(`has_any_named_roles`, whose predicate first rejects non-server
invocations), then increments the caller's own count by 1. -/
def add_cmd (ctx : Ctx) (s : Store) : Result × Store :=
  match ctx.guild with
  | none => (.serverOnly, s)
  | some gid =>
    if _member_has_any_roles ctx.author ["Chef"] then
      let display := name_for (some ctx.author) ctx.author.name
      let res := _add_count gid ctx.author.id 1 display s
      (.orderAdded res.1, res.2)
    else (.missingRole ["Chef"], s)

/-- Command `!leaderboard` / `!lb` / `!top` (`bot.py` lines 185–203): no role
check; reads `_top_n(guild.id, 10)`.  The handler's signature declares no
limit parameter, and `discord.py` silently ignores extra invocation
arguments (`ignore_extra` defaults to true), so `args` is unused. -/
def leaderboard_cmd (ctx : Ctx) ( _args : List String) (s : Store) : Result × Store :=
  match ctx.guild with
  | none => (.serverOnly, s)
  | some gid =>
    let rows := _top_n gid 10 s
    if rows = [] then (.noData, s) else (.board rows, s)

/-- Modelled from the spec: the spec's command table gives `leaderboard`
an "optional limit (default 10)" argument; this variant, written from
those words, passes the limit through to the top-N read.  It exists only
to be compared with `leaderboard_cmd`, the handler embedded from the
source. -/
def leaderboard_spec_cmd (ctx : Ctx) (limit : Option Nat) (s : Store) : Result × Store :=
  match ctx.guild with
  | none => (.serverOnly, s)
  | some gid =>
    let rows := _top_n gid (limit.getD 10) s
    if rows = [] then (.noData, s) else (.board rows, s)

/-- Command `!remove @user` (`bot.py` lines 206–218): gated by `Head Chef` or
`Owner`; needs a target member; deletes the target's record. -/
def remove_cmd (ctx : Ctx) (user : Option Member) (s : Store) : Result × Store :=
  match ctx.guild with
  | none => (.serverOnly, s)
  | some gid =>
    if _member_has_any_roles ctx.author ["Head Chef", "Owner"] then
      match user with
      | none => (.usage, s)
      | some u =>
        let res := _remove_user gid u.id s
        if res.1 then (.removed (name_for (some u) u.name), res.2)
        else (.notOnBoard, res.2)
    else (.missingRole ["Head Chef", "Owner"], s)

/-- Command `!set @user amount` (`bot.py` lines 221–232): gated by `Head Chef` or
`Owner`; needs a target and an amount; rejects a negative amount before
calling the store. -/
def set_cmd (ctx : Ctx) (user : Option Member) (amount : Option Int) (s : Store) :
    Result × Store :=
  match ctx.guild with
  | none => (.serverOnly, s)
  | some gid =>
    if _member_has_any_roles ctx.author ["Head Chef", "Owner"] then
      match user, amount with
      | some u, some a =>
        if a < 0 then (.negativeAmount, s)
        else
          let res := _set_count gid u.id a (name_for (some u) u.name) s
          (.valueSet (name_for (some u) u.name) res.1, res.2)
      | _, _ => (.usage, s)
    else (.missingRole ["Head Chef", "Owner"], s)

/-- Command `!resetall` (`bot.py` lines 235–241): gated by `Head Chef` or `Owner`;
zeroes every count of the community. -/
def resetall_cmd (ctx : Ctx) (s : Store) : Result × Store :=
  match ctx.guild with
  | none => (.serverOnly, s)
  | some gid =>
    if _member_has_any_roles ctx.author ["Head Chef", "Owner"] then
      let res := _reset_all gid s
      (.resetDone res.1, res.2)
    else (.missingRole ["Head Chef", "Owner"], s)

/-- The five commands of the bot. -/
inductive Cmd where
  | add | leaderboard | remove | set | resetall
  deriving Repr, DecidableEq

/-- The required-roles column of the command table: the role names passed
to the `has_any_named_roles` decorator of each handler; `[]` for
`leaderboard`, which carries no decorator. -/
def requiredRoles : Cmd → List String
  | .add => ["Chef"]
  | .leaderboard => []
  | .remove => ["Head Chef", "Owner"]
  | .set => ["Head Chef", "Owner"]
  | .resetall => ["Head Chef", "Owner"]

/-- Whether the role gate lets `m` run `c`: `leaderboard` has no
`has_any_named_roles` decorator in the source, so it is open to everyone;
every other command runs `_member_has_any_roles` on its required roles. -/
def commandAllowed (c : Cmd) (m : Member) : Bool :=
  match c with
  | .leaderboard => true
  | c => _member_has_any_roles m (requiredRoles c)

/-- A mutating counter operation, for stating invariants over arbitrary
sequences of `increment` (`_add_count`) and `set` (`_set_count`) calls. -/
inductive CounterOp where
  | increment (gid uid : Nat) (delta : Int) (display_name : String)
  | set (gid uid : Nat) (value : Int) (display_name : String)
  deriving Repr

/-- Apply one counter operation to the store. -/
def applyOp (op : CounterOp) (s : Store) : Store :=
  match op with
  | .increment gid uid delta name => (_add_count gid uid delta name s).2
  | .set gid uid v name => (_set_count gid uid v name s).2

/-- Apply a sequence of counter operations, oldest first. -/
def applyOps (ops : List CounterOp) (s : Store) : Store :=
  ops.foldl (fun s op => applyOp op s) s

/-- Every stored count of the store is non-negative. -/
def countsNonneg (s : Store) : Bool :=
  s.all (fun r => 0 ≤ r.count)

/-- The count stored for `(gid, uid)`, or `0` when the pair has no row —
the value a fresh row starts with in `_add_count`/`_set_count`. -/
def lookupCount (gid uid : Nat) (s : Store) : Int :=
  match s.find? (keyIs gid uid) with
  | some r => r.count
  | none => 0

/-- The display name stored for `(gid, uid)`, or `dflt` when the pair has
no row. -/
def lookupNameD (gid uid : Nat) (s : Store) (dflt : String) : String :=
  match s.find? (keyIs gid uid) with
  | some r => r.display_name
  | none => dflt

example : _add_count 1 7 5 "a" [] = (5, [⟨1, 7, "a", 5⟩]) := by decide
example : _add_count 1 7 (-3) "b" [⟨1, 7, "a", 2⟩] = (0, [⟨1, 7, "b", 0⟩]) := by decide
example : _set_count 1 7 (-4) "" [⟨1, 7, "a", 2⟩] = (0, [⟨1, 7, "a", 0⟩]) := by decide
example : _remove_user 1 7 [⟨1, 7, "a", 2⟩, ⟨2, 7, "b", 3⟩] =
    (true, [⟨2, 7, "b", 3⟩]) := by decide
example : _reset_all 1 [⟨1, 7, "a", 2⟩, ⟨2, 7, "b", 3⟩, ⟨1, 8, "c", 1⟩] =
    (2, [⟨1, 7, "a", 0⟩, ⟨2, 7, "b", 3⟩, ⟨1, 8, "c", 0⟩]) := by decide
example : _top_n 1 2 [⟨1, 7, "a", 2⟩, ⟨2, 7, "b", 9⟩, ⟨1, 8, "c", 5⟩, ⟨1, 3, "d", 5⟩] =
    [⟨1, 3, "d", 5⟩, ⟨1, 8, "c", 5⟩] := by decide

/-! ### Helper lemmas -/

lemma keyIs_iff {gid uid : Nat} {r : Order} :
    keyIs gid uid r = true ↔ r.guild_id = gid ∧ r.user_id = uid := by
  simp [keyIs]

lemma applyTouch_count (row : Order) (c : Int) (n : String) :
    (applyTouch row c n).count = c := by
  by_cases h2 : n ≠ "" ∧ row.display_name ≠ n
  all_goals simp [applyTouch, h2]

lemma applyTouch_guild (row : Order) (c : Int) (n : String) :
    (applyTouch row c n).guild_id = row.guild_id := by
  by_cases h2 : n ≠ "" ∧ row.display_name ≠ n
  all_goals simp [applyTouch, h2]

lemma applyTouch_user (row : Order) (c : Int) (n : String) :
    (applyTouch row c n).user_id = row.user_id := by
  by_cases h2 : n ≠ "" ∧ row.display_name ≠ n
  all_goals simp [applyTouch, h2]

lemma applyTouch_name (row : Order) (c : Int) (n : String) :
    (applyTouch row c n).display_name =
      if n ≠ "" ∧ row.display_name ≠ n then n else row.display_name := by
  by_cases h2 : n ≠ "" ∧ row.display_name ≠ n
  all_goals simp [applyTouch, h2]

lemma mem_updateFirst {p : Order → Bool} {f : Order → Order} {s : Store} {r : Order}
    (h : r ∈ updateFirst p f s) :
    r ∈ s ∨ ∃ x, x ∈ s ∧ p x = true ∧ r = f x := by
  induction s with
  | nil => simp [updateFirst] at h
  | cons a as ih =>
    by_cases hp : p a = true
    · simp only [updateFirst, if_pos hp, List.mem_cons] at h
      rcases h with h | h
      · exact Or.inr ⟨a, List.mem_cons_self a as, hp, h⟩
      · exact Or.inl (List.mem_cons_of_mem a h)
    · simp only [updateFirst, if_neg hp, List.mem_cons] at h
      rcases h with h | h
      · exact Or.inl (h ▸ List.mem_cons_self a as)
      · rcases ih h with h' | ⟨x, hx, hpx, hr⟩
        · exact Or.inl (List.mem_cons_of_mem a h')
        · exact Or.inr ⟨x, List.mem_cons_of_mem a hx, hpx, hr⟩

lemma find?_updateFirst_const {p : Order → Bool} {x : Order} {s : Store}
    (hs : (s.find? p).isSome) (hx : p x = true) :
    (updateFirst p (fun _ => x) s).find? p = some x := by
  induction s with
  | nil => simp at hs
  | cons a as ih =>
    by_cases hp : p a = true
    · simp only [updateFirst, if_pos hp]
      exact List.find?_cons_of_pos _ hx
    · simp only [updateFirst, if_neg hp]
      rw [List.find?_cons_of_neg _ (by simpa using hp)]
      apply ih
      rw [List.find?_cons_of_neg _ (by simpa using hp)] at hs
      exact hs

lemma filter_updateFirst {p q : Order → Bool} {f : Order → Order} {s : Store}
    (h1 : ∀ r, p r = true → q r = false) (h2 : ∀ r, p r = true → q (f r) = false) :
    (updateFirst p f s).filter q = s.filter q := by
  induction s with
  | nil => rfl
  | cons a as ih =>
    by_cases hp : p a = true
    · simp only [updateFirst, if_pos hp, List.filter_cons, h1 a hp, h2 a hp]
      simp
    · simp only [updateFirst, if_neg hp, List.filter_cons]
      cases hq : q a <;> simp [ih]

lemma filter_eraseP {p q : Order → Bool} {s : Store}
    (h : ∀ r, p r = true → q r = false) :
    (s.eraseP p).filter q = s.filter q := by
  induction s with
  | nil => rfl
  | cons a as ih =>
    by_cases hp : p a = true
    · rw [List.eraseP_cons_of_pos hp, List.filter_cons, h a hp]
      simp
    · rw [List.eraseP_cons_of_neg (by simpa using hp)]
      simp only [List.filter_cons]
      cases hq : q a <;> simp [ih]

lemma eraseP_no_match {p : Order → Bool} {s : Store}
    (hu : s.Pairwise (fun a b => p a = true → p b = false)) :
    ∀ r ∈ s.eraseP p, p r = false := by
  induction s with
  | nil => simp
  | cons a as ih =>
    rcases List.pairwise_cons.mp hu with ⟨ha, htl⟩
    by_cases hp : p a = true
    · rw [List.eraseP_cons_of_pos hp]
      intro r hr
      exact ha r hr hp
    · rw [List.eraseP_cons_of_neg (by simpa using hp)]
      intro r hr
      rcases List.mem_cons.mp hr with h | h
      · subst h; simpa using hp
      · exact ih htl r h

lemma mem_top_n {gid n : Nat} {s : Store} {r : Order} (h : r ∈ _top_n gid n s) :
    r ∈ s ∧ r.guild_id = gid := by
  unfold _top_n at h
  have h1 := List.mem_of_mem_take h
  have h2 := (List.perm_insertionSort rank _).mem_iff.mp h1
  have h3 := List.mem_filter.mp h2
  exact ⟨h3.1, by simpa using h3.2⟩

lemma touch_name_eq (old n : String) :
    (if n ≠ "" ∧ old ≠ n then n else old) = if n ≠ "" then n else old := by
  by_cases h1 : n = "" <;> by_cases h2 : old = n <;> simp [h1, h2]

lemma add_count_none {gid uid : Nat} {delta : Int} {name : String} {s : Store}
    (hfind : s.find? (keyIs gid uid) = none) :
    _add_count gid uid delta name s =
      ((max 0 (0 + delta) : Int),
        s ++ [applyTouch ⟨gid, uid, name, 0⟩ (max 0 (0 + delta)) name]) := by
  unfold _add_count
  rw [hfind]
  simp [applyTouch_count]

lemma add_count_some {gid uid : Nat} {delta : Int} {name : String} {s : Store} {row : Order}
    (hfind : s.find? (keyIs gid uid) = some row) :
    _add_count gid uid delta name s =
      (max 0 (row.count + delta),
        updateFirst (keyIs gid uid)
          (fun _ => applyTouch row (max 0 (row.count + delta)) name) s) := by
  unfold _add_count
  rw [hfind]
  simp [applyTouch_count]

lemma set_count_none {gid uid : Nat} {value : Int} {name : String} {s : Store}
    (hfind : s.find? (keyIs gid uid) = none) :
    _set_count gid uid value name s =
      (max 0 value, s ++ [applyTouch ⟨gid, uid, name, 0⟩ (max 0 value) name]) := by
  unfold _set_count
  rw [hfind]
  simp [applyTouch_count]

lemma set_count_some {gid uid : Nat} {value : Int} {name : String} {s : Store} {row : Order}
    (hfind : s.find? (keyIs gid uid) = some row) :
    _set_count gid uid value name s =
      (max 0 value,
        updateFirst (keyIs gid uid) (fun _ => applyTouch row (max 0 value) name) s) := by
  unfold _set_count
  rw [hfind]
  simp [applyTouch_count]

lemma applyTouch_fresh (gid uid : Nat) (c : Int) (name : String) :
    applyTouch ⟨gid, uid, name, 0⟩ c name = ⟨gid, uid, name, c⟩ := by
  simp [applyTouch]

lemma keyIs_applyTouch {gid uid : Nat} {row : Order} {c : Int} {n : String}
    (h : keyIs gid uid row = true) : keyIs gid uid (applyTouch row c n) = true := by
  rw [keyIs_iff] at h ⊢
  rw [applyTouch_guild, applyTouch_user]
  exact h

lemma filter_reset_map (gid : Nat) (s : Store) :
    (s.map (fun r => if r.guild_id == gid then { r with count := 0 } else r)).filter
      (fun r => !(r.guild_id == gid)) = s.filter (fun r => !(r.guild_id == gid)) := by
  induction s with
  | nil => rfl
  | cons a as ih =>
    by_cases hg : a.guild_id = gid <;> simpa [hg, List.filter_cons] using ih

lemma count_nonneg_applyOp (op : CounterOp) {s : Store}
    (h : ∀ r ∈ s, 0 ≤ r.count) : ∀ r ∈ applyOp op s, 0 ≤ r.count := by
  intro r hr
  cases op with
  | increment gid uid delta name =>
    simp only [applyOp] at hr
    cases hfind : s.find? (keyIs gid uid) with
    | none =>
      rw [add_count_none hfind] at hr
      rcases List.mem_append.mp hr with h1 | h1
      · exact h r h1
      · have hr' : r = applyTouch ⟨gid, uid, name, 0⟩ (max 0 (0 + delta)) name := by
          simpa using h1
        rw [hr', applyTouch_count]
        exact le_max_left _ _
    | some row =>
      rw [add_count_some hfind] at hr
      rcases mem_updateFirst hr with h1 | ⟨x, _, _, hrx⟩
      · exact h r h1
      · rw [hrx, applyTouch_count]
        exact le_max_left _ _
  | set gid uid v name =>
    simp only [applyOp] at hr
    cases hfind : s.find? (keyIs gid uid) with
    | none =>
      rw [set_count_none hfind] at hr
      rcases List.mem_append.mp hr with h1 | h1
      · exact h r h1
      · have hr' : r = applyTouch ⟨gid, uid, name, 0⟩ (max 0 v) name := by
          simpa using h1
        rw [hr', applyTouch_count]
        exact le_max_left _ _
    | some row =>
      rw [set_count_some hfind] at hr
      rcases mem_updateFirst hr with h1 | ⟨x, _, _, hrx⟩
      · exact h r h1
      · rw [hrx, applyTouch_count]
        exact le_max_left _ _

/-! ### Claims -/

/-- C1: starting from any store whose counts are all non-negative, any
sequence of increment (`_add_count`) and set (`_set_count`) operations
leaves every stored count non-negative — attempted negative values are
clamped to 0 by the `max(0, ·)` in both helpers. -/
theorem C1_counts_nonneg (ops : List CounterOp) (s : Store)
    (h : countsNonneg s = true) : countsNonneg (applyOps ops s) = true := by
  rw [countsNonneg, List.all_eq_true] at h ⊢
  simp only [decide_eq_true_eq] at h ⊢
  induction ops generalizing s with
  | nil => exact h
  | cons op ops ih =>
    have hstep := count_nonneg_applyOp op h
    have : applyOps (op :: ops) s = applyOps ops (applyOp op s) := rfl
    rw [this]
    exact ih _ hstep

/-- Witness for C1 at a concrete run: a decrement below zero followed by a
set, starting from the empty store. -/
theorem C1_counts_nonneg_witness :
    countsNonneg (applyOps
      [CounterOp.increment 1 7 (-5) "a", CounterOp.set 1 8 3 "b",
       CounterOp.increment 1 8 (-9) "b"] []) = true :=
  C1_counts_nonneg _ [] (by decide)

/-- C2: `_add_count` returns `max 0 (old + delta)` where `old` is the
stored count (0 when the pair had no row, since a fresh row is created
with count 0), and afterwards the row for the pair holds exactly that
count and the refreshed display name (the given one when non-empty, the
previously stored one otherwise). -/
theorem C2_add_count (gid uid : Nat) (delta : Int) (name : String) (s : Store) :
    (_add_count gid uid delta name s).1 = max 0 (lookupCount gid uid s + delta) ∧
    ((_add_count gid uid delta name s).2).find? (keyIs gid uid) =
      some ⟨gid, uid,
            if name ≠ "" then name else lookupNameD gid uid s name,
            max 0 (lookupCount gid uid s + delta)⟩ := by
  cases hfind : s.find? (keyIs gid uid) with
  | none =>
    rw [add_count_none hfind, lookupCount, lookupNameD, hfind]
    constructor
    · rfl
    · rw [applyTouch_fresh, List.find?_append]
      rw [List.find?_eq_none.mpr (by
        intro x hx
        have := List.find?_eq_none.mp hfind x hx
        simpa using this)]
      simp only [Option.none_or]
      rw [List.find?_cons_of_pos _ (by simp [keyIs])]
      have : (if name ≠ "" then name else name) = name := by
        by_cases h : name = "" <;> simp [h]
      rw [this]
  | some row =>
    have hkey := keyIs_iff.mp (List.find?_some hfind)
    rw [add_count_some hfind, lookupCount, lookupNameD, hfind]
    constructor
    · rfl
    · rw [find?_updateFirst_const (by rw [hfind]; rfl)
        (keyIs_applyTouch (List.find?_some hfind))]
      congr 1
      ext
      · rw [applyTouch_guild]; exact hkey.1
      · rw [applyTouch_user]; exact hkey.2
      · rw [applyTouch_name, touch_name_eq]
      · rw [applyTouch_count]

/-- C3: `_set_count` stores and returns `max 0 value` (defensive clamp)
and refreshes the display name; and the dispatcher (`set_cmd`) rejects a
negative amount with `negativeAmount`, leaving the store untouched, before
the store is ever reached. -/
theorem C3_set_count (gid uid : Nat) (v : Int) (name : String) (s : Store) :
    ((_set_count gid uid v name s).1 = max 0 v ∧
     ((_set_count gid uid v name s).2).find? (keyIs gid uid) =
       some ⟨gid, uid,
             if name ≠ "" then name else lookupNameD gid uid s name,
             max 0 v⟩) ∧
    (∀ (ctx : Ctx) (gid' : Nat) (u : Member) (a : Int), a < 0 →
      ctx.guild = some gid' →
      _member_has_any_roles ctx.author ["Head Chef", "Owner"] = true →
      set_cmd ctx (some u) (some a) s = (.negativeAmount, s)) := by
  constructor
  · cases hfind : s.find? (keyIs gid uid) with
    | none =>
      rw [set_count_none hfind, lookupNameD, hfind]
      constructor
      · rfl
      · rw [applyTouch_fresh, List.find?_append]
        rw [List.find?_eq_none.mpr (by
          intro x hx
          have := List.find?_eq_none.mp hfind x hx
          simpa using this)]
        simp only [Option.none_or]
        rw [List.find?_cons_of_pos _ (by simp [keyIs])]
        have : (if name ≠ "" then name else name) = name := by
          by_cases h : name = "" <;> simp [h]
        rw [this]
    | some row =>
      have hkey := keyIs_iff.mp (List.find?_some hfind)
      rw [set_count_some hfind, lookupNameD, hfind]
      constructor
      · rfl
      · rw [find?_updateFirst_const (by rw [hfind]; rfl)
          (keyIs_applyTouch (List.find?_some hfind))]
        congr 1
        ext
        · rw [applyTouch_guild]; exact hkey.1
        · rw [applyTouch_user]; exact hkey.2
        · rw [applyTouch_name, touch_name_eq]
        · rw [applyTouch_count]
  · intro ctx gid' u a ha hguild hroles
    simp [set_cmd, hguild, hroles, ha]

/-- Witness for C3: an `Owner` issuing `set` with amount `-5` gets
`negativeAmount` and the store is unchanged. -/
theorem C3_set_count_witness :
    set_cmd ⟨some 1, ⟨9, "boss", "Boss", ["Owner"]⟩⟩ (some ⟨7, "u", "U", []⟩)
        (some (-5)) [⟨1, 7, "U", 3⟩] =
      (.negativeAmount, [⟨1, 7, "U", 3⟩]) :=
  (C3_set_count 1 7 (-5) "U" [⟨1, 7, "U", 3⟩]).2 ⟨some 1, ⟨9, "boss", "Boss", ["Owner"]⟩⟩
    1 ⟨7, "u", "U", []⟩ (-5) (by decide) rfl (by decide)

/-- C4: `_top_n` returns at most `n` rows, ordered by count descending
with ties broken by `user_id` ascending (`rank`), all from the requested
community; it returns `[]` when the community has no rows; and the
leaderboard handler leaves the store unchanged.  (The embedding is pure,
so repeated calls with no intervening writes are definitionally equal —
read-only stability.) -/
theorem C4_top_n (gid n : Nat) (s : Store) (ctx : Ctx) ( _args : List String) :
    (_top_n gid n s).length ≤ n ∧
    (_top_n gid n s).Pairwise rank ∧
    (∀ r ∈ _top_n gid n s, r.guild_id = gid) ∧
    (s.filter (fun r => r.guild_id == gid) = [] → _top_n gid n s = []) ∧
    (leaderboard_cmd ctx _args s).2 = s := by
  refine ⟨?_, ?_, ?_, ?_, ?_⟩
  · exact List.length_take_le n _
  · exact ((List.sorted_insertionSort rank _).sublist (List.take_sublist n _))
  · exact fun r hr => (mem_top_n hr).2
  · intro hempty
    simp [_top_n, hempty]
  · cases hguild : ctx.guild with
    | none => simp [leaderboard_cmd, hguild]
    | some g =>
      simp only [leaderboard_cmd, hguild]
      split <;> rfl

/-- Witness for C4: a community with no rows yields the empty leaderboard,
and the handler preserves a concrete store. -/
theorem C4_top_n_witness :
    _top_n 2 5 [⟨1, 7, "a", 2⟩] = [] ∧
    (leaderboard_cmd ⟨some 1, ⟨7, "u", "U", []⟩⟩ [] [⟨1, 7, "a", 2⟩]).2 =
      [⟨1, 7, "a", 2⟩] :=
  ⟨(C4_top_n 2 5 [⟨1, 7, "a", 2⟩] ⟨some 1, ⟨7, "u", "U", []⟩⟩ []).2.2.2.1 (by decide),
   (C4_top_n 2 5 [⟨1, 7, "a", 2⟩] ⟨some 1, ⟨7, "u", "U", []⟩⟩ []).2.2.2.2⟩

/-- C5: the role gate holds exactly when the caller's role set and the
required set intersect case-insensitively (any one required role
suffices); a command whose required set is empty (`leaderboard`, which
carries no role decorator) is allowed for everyone, and every other
command's gate is exactly `_member_has_any_roles` on its required
roles. -/
theorem C5_authorize (m : Member) (required : List String) (c : Cmd) :
    (_member_has_any_roles m required = true ↔
      ∃ r ∈ m.roles, ∃ q ∈ required, lower r = lower q) ∧
    (requiredRoles c = [] → commandAllowed c m = true) ∧
    (requiredRoles c ≠ [] →
      commandAllowed c m = _member_has_any_roles m (requiredRoles c)) := by
  refine ⟨?_, ?_, ?_⟩
  · simp only [_member_has_any_roles, List.any_eq_true, List.mem_map]
    constructor
    · rintro ⟨x, ⟨r, hr, rfl⟩, hx⟩
      have := List.contains_iff_exists_mem_beq.mp hx
      rcases this with ⟨y, hy, hbeq⟩
      rcases List.mem_map.mp hy with ⟨q, hq, rfl⟩
      exact ⟨r, hr, q, hq, by simpa using hbeq⟩
    · rintro ⟨r, hr, q, hq, heq⟩
      refine ⟨lower r, ⟨r, hr, rfl⟩, ?_⟩
      exact List.contains_iff_exists_mem_beq.mpr
        ⟨lower q, List.mem_map.mpr ⟨q, hq, rfl⟩, by simpa using heq⟩
  · intro h
    cases c <;> simp_all [commandAllowed, requiredRoles]
  · intro h
    cases c <;> simp_all [commandAllowed, requiredRoles]

/-- Witness for C5: a caller whose role `oWNer` matches required role
`Owner` case-insensitively is allowed to run `set`; `leaderboard`, with
an empty required set, is allowed to a roleless caller. -/
theorem C5_authorize_witness :
    commandAllowed .leaderboard ⟨7, "u", "U", []⟩ = true ∧
    commandAllowed .set ⟨9, "b", "B", ["oWNer"]⟩ =
      _member_has_any_roles ⟨9, "b", "B", ["oWNer"]⟩ (requiredRoles .set) ∧
    _member_has_any_roles ⟨9, "b", "B", ["oWNer"]⟩ ["Head Chef", "Owner"] = true :=
  ⟨(C5_authorize ⟨7, "u", "U", []⟩ [] .leaderboard).2.1 rfl,
   (C5_authorize ⟨9, "b", "B", ["oWNer"]⟩ [] .set).2.2 (by decide),
   (C5_authorize ⟨9, "b", "B", ["oWNer"]⟩ ["Head Chef", "Owner"] .set).1.mpr
     ⟨"oWNer", by decide, "Owner", by decide, by decide⟩⟩

lemma filter_append_singleton_not {p : Order → Bool} {s : Store} {x : Order}
    (h : p x = true) :
    (s ++ [x]).filter (fun r => !(p r)) = s.filter (fun r => !(p r)) := by
  rw [List.filter_append]
  simp [h]

lemma remove_user_none {gid uid : Nat} {s : Store}
    (hfind : s.find? (keyIs gid uid) = none) :
    _remove_user gid uid s = (false, s) := by
  unfold _remove_user
  rw [hfind]

lemma remove_user_some {gid uid : Nat} {s : Store} {row : Order}
    (hfind : s.find? (keyIs gid uid) = some row) :
    _remove_user gid uid s = (true, s.eraseP (keyIs gid uid)) := by
  unfold _remove_user
  rw [hfind]

/-- C6: `_remove_user` reports whether a row for the pair existed; under
the table's uniqueness constraint, afterwards no row for the pair remains,
a second removal reports `false`, and the removed member appears in no
subsequent `_top_n` result of the community. -/
theorem C6_remove (gid uid : Nat) (s : Store) (hu : StoreUniq s) :
    ((_remove_user gid uid s).1 = true ↔
      ∃ r ∈ s, r.guild_id = gid ∧ r.user_id = uid) ∧
    (∀ r ∈ (_remove_user gid uid s).2, ¬(r.guild_id = gid ∧ r.user_id = uid)) ∧
    (_remove_user gid uid ((_remove_user gid uid s).2)).1 = false ∧
    (∀ n r, r ∈ _top_n gid n ((_remove_user gid uid s).2) → r.user_id ≠ uid) := by
  have hno : ∀ r ∈ (_remove_user gid uid s).2, keyIs gid uid r = false := by
    cases hfind : s.find? (keyIs gid uid) with
    | none =>
      rw [remove_user_none hfind]
      intro r hr
      simpa using List.find?_eq_none.mp hfind r hr
    | some row =>
      rw [remove_user_some hfind]
      refine eraseP_no_match (List.Pairwise.imp ?_ hu)
      intro a b hab ha
      cases hb : keyIs gid uid b with
      | false => rfl
      | true =>
        exfalso
        rcases keyIs_iff.mp ha with ⟨hg1, hu1⟩
        rcases keyIs_iff.mp hb with ⟨hg2, hu2⟩
        rcases hab with h | h
        · exact h (hg1.trans hg2.symm)
        · exact h (hu1.trans hu2.symm)
  refine ⟨?_, ?_, ?_, ?_⟩
  · cases hfind : s.find? (keyIs gid uid) with
    | none =>
      rw [remove_user_none hfind]
      simp only [Bool.false_eq_true, false_iff]
      rintro ⟨r, hr, hg, hu'⟩
      exact absurd (keyIs_iff.mpr ⟨hg, hu'⟩)
        (by simpa using List.find?_eq_none.mp hfind r hr)
    | some row =>
      rw [remove_user_some hfind]
      exact iff_of_true rfl
        ⟨row, List.mem_of_find?_eq_some hfind, keyIs_iff.mp (List.find?_some hfind)⟩
  · intro r hr hkey
    exact absurd (keyIs_iff.mpr hkey) (by simp [hno r hr])
  · have hnone : ((_remove_user gid uid s).2).find? (keyIs gid uid) = none :=
      List.find?_eq_none.mpr (fun x hx => by simp [hno x hx])
    rw [remove_user_none hnone]
  · intro n r hr heq
    rcases mem_top_n hr with ⟨hmem, hg⟩
    exact absurd (keyIs_iff.mpr ⟨hg, heq⟩) (by simp [hno r hmem])

/-- Witness for C6: removing member 7 of community 1 twice from a
one-row store reports `false` the second time. -/
theorem C6_remove_witness :
    (_remove_user 1 7 ((_remove_user 1 7 [⟨1, 7, "a", 2⟩]).2)).1 = false :=
  (C6_remove 1 7 [⟨1, 7, "a", 2⟩] (by simp [StoreUniq])).2.2.1

/-- C7: `_reset_all` keeps every row in existence with its identity and
display name unchanged (positionally equal projections), zeroes the count
of every row of the community, keeps the rows of other communities wholly
unchanged, and returns the number of rows of the community. -/
theorem C7_reset_all (gid : Nat) (s : Store) :
    ((_reset_all gid s).2).map (fun r => (r.guild_id, r.user_id, r.display_name)) =
      s.map (fun r => (r.guild_id, r.user_id, r.display_name)) ∧
    (∀ r ∈ (_reset_all gid s).2, r.guild_id = gid → r.count = 0) ∧
    (∀ r ∈ (_reset_all gid s).2, r.guild_id ≠ gid → r ∈ s) ∧
    (∀ r ∈ s, r.guild_id ≠ gid → r ∈ (_reset_all gid s).2) ∧
    (_reset_all gid s).1 = (s.filter (fun r => r.guild_id == gid)).length := by
  refine ⟨?_, ?_, ?_, ?_, rfl⟩
  · show (s.map _).map _ = _
    rw [List.map_map]
    refine List.map_congr_left ?_
    intro r _
    by_cases hg : r.guild_id = gid <;> simp [hg]
  · intro r hr hg
    rcases List.mem_map.mp hr with ⟨x, hx, rfl⟩
    by_cases hgx : (x.guild_id == gid) = true <;> simp_all
  · intro r hr hg
    rcases List.mem_map.mp hr with ⟨x, hx, rfl⟩
    by_cases hgx : (x.guild_id == gid) = true <;> simp_all
  · intro r hr hg
    refine List.mem_map.mpr ⟨r, hr, ?_⟩
    simp [show (r.guild_id == gid) = false by simpa using hg]

/-- Witness for C7: resetting community 1 in a two-community store leaves
the community-2 row wholly intact and reports one row touched. -/
theorem C7_reset_all_witness :
    (⟨2, 8, "b", 3⟩ : Order) ∈ (_reset_all 1 [⟨1, 7, "a", 2⟩, ⟨2, 8, "b", 3⟩]).2 ∧
    (_reset_all 1 [⟨1, 7, "a", 2⟩, ⟨2, 8, "b", 3⟩]).1 = 1 :=
  ⟨(C7_reset_all 1 [⟨1, 7, "a", 2⟩, ⟨2, 8, "b", 3⟩]).2.2.2.1 ⟨2, 8, "b", 3⟩
      (by decide) (by decide),
   ((C7_reset_all 1 [⟨1, 7, "a", 2⟩, ⟨2, 8, "b", 3⟩]).2.2.2.2).trans (by decide)⟩

/-- C9 counterexample: the handler embedded from the source ignores a
supplied limit where the spec-worded variant honours it — on a four-row
community, invoking the leaderboard with argument `"3"` returns all four
rows, not three. -/
theorem C9_counterexample :
    leaderboard_cmd ⟨some 1, ⟨7, "u", "U", []⟩⟩ ["3"]
        [⟨1, 1, "a", 4⟩, ⟨1, 2, "b", 3⟩, ⟨1, 3, "c", 2⟩, ⟨1, 4, "d", 1⟩] ≠
      leaderboard_spec_cmd ⟨some 1, ⟨7, "u", "U", []⟩⟩ (some 3)
        [⟨1, 1, "a", 4⟩, ⟨1, 2, "b", 3⟩, ⟨1, 3, "c", 2⟩, ⟨1, 4, "d", 1⟩] := by
  decide

/-- C9 amended: the leaderboard command takes no limit argument — any
supplied argument is ignored — and always performs the top-N read with
the fixed limit 10. -/
theorem C9_leaderboard (ctx : Ctx) (a1 a2 : List String) (gid : Nat) (s : Store)
    (h : ctx.guild = some gid) :
    leaderboard_cmd ctx a1 s = leaderboard_cmd ctx a2 s ∧
    leaderboard_cmd ctx a1 s =
      (if _top_n gid 10 s = [] then (.noData, s) else (.board (_top_n gid 10 s), s)) := by
  constructor <;> simp [leaderboard_cmd, h]

/-- Witness for C9 amended: a supplied `"3"` argument makes no difference
on a concrete store. -/
theorem C9_leaderboard_witness :
    leaderboard_cmd ⟨some 1, ⟨7, "u", "U", []⟩⟩ ["3"] [⟨1, 7, "a", 2⟩] =
      leaderboard_cmd ⟨some 1, ⟨7, "u", "U", []⟩⟩ [] [⟨1, 7, "a", 2⟩] :=
  (C9_leaderboard ⟨some 1, ⟨7, "u", "U", []⟩⟩ ["3"] [] 1 [⟨1, 7, "a", 2⟩] rfl).1

/-- C10: every member-scoped store operation preserves, row for row, all
rows whose `(guild_id, user_id)` key differs from the touched one — so
other communities and other members of the same community are untouched —
and `_reset_all` preserves all rows of other communities. -/
theorem C10_frame (gid uid : Nat) (delta v : Int) (name : String) (s : Store) :
    ((_add_count gid uid delta name s).2).filter (fun r => !(keyIs gid uid r)) =
      s.filter (fun r => !(keyIs gid uid r)) ∧
    ((_set_count gid uid v name s).2).filter (fun r => !(keyIs gid uid r)) =
      s.filter (fun r => !(keyIs gid uid r)) ∧
    ((_remove_user gid uid s).2).filter (fun r => !(keyIs gid uid r)) =
      s.filter (fun r => !(keyIs gid uid r)) ∧
    ((_reset_all gid s).2).filter (fun r => !(r.guild_id == gid)) =
      s.filter (fun r => !(r.guild_id == gid)) := by
  refine ⟨?_, ?_, ?_, ?_⟩
  · cases hfind : s.find? (keyIs gid uid) with
    | none =>
      rw [add_count_none hfind]
      exact filter_append_singleton_not (keyIs_applyTouch (by simp [keyIs]))
    | some row =>
      rw [add_count_some hfind]
      exact filter_updateFirst (fun r h => by simp [h])
        (fun r h => by simp [keyIs_applyTouch (List.find?_some hfind)])
  · cases hfind : s.find? (keyIs gid uid) with
    | none =>
      rw [set_count_none hfind]
      exact filter_append_singleton_not (keyIs_applyTouch (by simp [keyIs]))
    | some row =>
      rw [set_count_some hfind]
      exact filter_updateFirst (fun r h => by simp [h])
        (fun r h => by simp [keyIs_applyTouch (List.find?_some hfind)])
  · cases hfind : s.find? (keyIs gid uid) with
    | none => rw [remove_user_none hfind]
    | some row =>
      rw [remove_user_some hfind]
      exact filter_eraseP (fun r h => by simp [h])
  · exact filter_reset_map gid s

end SliceLB
